import Mathlib

/-!
Verification development for the my_claw supervisor/router core.

This file shallowly embeds the parts of the repository's TypeScript source
that the frozen claims talk about:

* `launcher.ts` (the process supervisor): restart-state file handling,
  child-ready handling with the git commit-on-success contract, startup
  failure handling with retry/rollback, clean-exit restart, and the
  restart-request message handler.
* `src/services/feishu/feishu-service.ts` (`FeishuService`): the message
  dedup cache (`isDuplicate` / `markSeen` / `handleMessage` gate) and the
  oversized-reply splitter (`splitAtParagraphs` / `sendMessage`).
* `src/services/feishu/feishu-agent-bridge.ts` (`FeishuAgentBridge`):
  conversation-key derivation and `getOrCreateSessionId`.
* `src/core/agent/engine/session-manager.ts` (`SessionManager`):
  `createSession`, `addMessage`, `clearMessages`, `compressContext`,
  `estimateTokenCount`.

External effects (filesystem, git subprocesses, the Feishu SDK, timers) are
modelled as explicit state and action traces; strings are modelled either as
Lean `String` or as `List Char` where per-character operations matter.
-/

namespace MyClaw

/-! ## Launcher (launcher.ts) -/

/-- `RestartState.status` values from launcher.ts. -/
inductive RestartStatus
  | restarting
  | rollback
  | success
deriving DecidableEq, Repr

/-- The persisted `.restart-state.json` record (launcher.ts `RestartState`). -/
structure RestartState where
  chatIds : List String
  messageIds : List String
  status : RestartStatus
  timestamp : Nat
  error : Option String := none
  stashCreated : Option Bool := none
deriving DecidableEq, Repr

/-- launcher.ts: `MAX_RESTART_RETRIES = 1`. -/
def MAX_RESTART_RETRIES : Nat := 1

/-- Git commands the launcher shells out to (`execSync` calls), recorded as a
trace so that theorems can count commits and stashes. -/
inductive GitCmd
  | statusPorcelain
  | addAll
  | commitCmd (msg : String)
  | stashPushU (marker : String)
  | stashListCmd
  | stashPopCmd (marker : String)
deriving DecidableEq, Repr

/-- Number of `git commit` invocations in a trace. -/
def commitTraceCount (tr : List GitCmd) : Nat :=
  tr.countP fun c => match c with | .commitCmd _ => true | _ => false

/-- Abstract state of the git working tree and stash list.  `dirty` models
`git status --porcelain` printing a non-empty result; `stashes` holds the
stash markers, newest first. -/
structure GitState where
  dirty : Bool
  stashes : List String
deriving DecidableEq, Repr

/-- In-memory state of the `Launcher` class plus the state file it owns.
`stateFile = none` models the `.restart-state.json` file being absent. -/
structure LauncherState where
  stateFile : Option RestartState
  restartRetries : Nat
  readyTimeoutArmed : Bool
  childRunning : Bool
  isShuttingDown : Bool
  isRestarting : Bool
deriving DecidableEq, Repr

/-- Result of one launcher event handler: the new launcher and git state, the
git commands issued, whether `process.exit` was called (and its code), the
`{ type: 'state' }` message sent to the child if any, the delay of the
scheduled state-file cleanup if one was scheduled, and whether a fresh child
was forked. -/
structure StepResult where
  launcher : LauncherState
  git : GitState
  trace : List GitCmd
  exitCode : Option Nat := none
  sentToChild : Option RestartState := none
  cleanupDelayMs : Option Nat := none
  forked : Bool := false
deriving DecidableEq, Repr

/-- launcher.ts `forkChild`: spawns the child and arms the 30s ready timer. -/
def forkChildR (l : LauncherState) : LauncherState :=
  { l with childRunning := true, readyTimeoutArmed := true }

/-- launcher.ts `restoreStash`: list stashes, find the `launcher-auto-stash`
entry, pop it (putting the stashed changes back into the working tree). -/
def restoreStash (g : GitState) : GitState × List GitCmd :=
  if g.stashes.contains "launcher-auto-stash" then
    ({ dirty := true, stashes := g.stashes.erase "launcher-auto-stash" },
      [GitCmd.stashListCmd, GitCmd.stashPopCmd "launcher-auto-stash"])
  else
    (g, [GitCmd.stashListCmd])

/-- launcher.ts `handleChildReady`: cancel the ready timer, reset the retry
counter, then act on the persisted state: on `restarting`, commit the working
tree iff dirty and flip the status to `success`; on `rollback`, pop the stash
iff one was created; finally forward the (updated) state to the child and
schedule deletion of the state file after a 3000 ms grace delay. -/
def handleChildReady (l : LauncherState) (g : GitState) : StepResult :=
  let l1 := { l with readyTimeoutArmed := false, restartRetries := 0 }
  match l1.stateFile with
  | none => { launcher := l1, git := g, trace := [] }
  | some st =>
    match st.status with
    | .restarting =>
      let (g1, tr) :=
        if g.dirty then
          ({ g with dirty := false },
            [GitCmd.statusPorcelain, GitCmd.addAll,
              GitCmd.commitCmd "auto: verified restart commit"])
        else (g, [GitCmd.statusPorcelain])
      let st1 := { st with status := RestartStatus.success }
      let l2 := { l1 with stateFile := some st1 }
      { launcher := l2
        git := g1
        trace := tr
        sentToChild := if l2.childRunning then some st1 else none
        cleanupDelayMs := some 3000 }
    | .rollback =>
      let (g1, tr) :=
        if st.stashCreated = some true then restoreStash g else (g, [])
      { launcher := l1
        git := g1
        trace := tr
        sentToChild := if l1.childRunning then some st else none
        cleanupDelayMs := some 3000 }
    | .success =>
      { launcher := l1
        git := g
        trace := []
        sentToChild := if l1.childRunning then some st else none
        cleanupDelayMs := some 3000 }

/-- launcher.ts `performRestart`: guarded by the `isRestarting` flag; kills the
old child and forks a fresh one. -/
def performRestart (l : LauncherState) (g : GitState) : StepResult :=
  if l.isRestarting then { launcher := l, git := g, trace := [] }
  else
    { launcher := forkChildR { l with childRunning := false }
      git := g
      trace := []
      forked := true }

/-- launcher.ts `handleRestartRequest` (on an IPC `restart` message): if no
state file exists, synthesize a minimal `restarting` one, then restart. -/
def handleRestartRequest (now : Nat) (l : LauncherState) (g : GitState) : StepResult :=
  let l1 :=
    match l.stateFile with
    | none =>
      { l with
          stateFile := some { chatIds := [], messageIds := [], status := RestartStatus.restarting, timestamp := now } }
    | some _ => l
  performRestart l1 g

/-- launcher.ts `performRollback`: stash all changes (including untracked
files) under the `launcher-auto-stash` marker iff the tree is dirty, persist
`status = rollback` with the failure reason and the `stashCreated` flag,
reset the retry counter and fork the child again. -/
def performRollback (errMsg : String) (l : LauncherState) (g : GitState)
    (st : RestartState) : StepResult :=
  let (g1, tr, stashCreated) :=
    if g.dirty then
      ({ dirty := false, stashes := "launcher-auto-stash" :: g.stashes },
        [GitCmd.statusPorcelain, GitCmd.stashPushU "launcher-auto-stash"], true)
    else (g, [GitCmd.statusPorcelain], false)
  let st1 := { st with
                 status := RestartStatus.rollback
                 error := some errMsg
                 stashCreated := some stashCreated }
  let l1 := { l with stateFile := some st1, restartRetries := 0 }
  { launcher := forkChildR l1, git := g1, trace := tr, forked := true }

/-- launcher.ts `handleStartupFailure`: retry while under the retry budget;
otherwise exit the whole program with code 1 when no state file exists, and
perform a rollback when one does. -/
def handleStartupFailure (errMsg : String) (l : LauncherState) (g : GitState) : StepResult :=
  if l.restartRetries < MAX_RESTART_RETRIES then
    { launcher := forkChildR { l with restartRetries := l.restartRetries + 1 }
      git := g
      trace := []
      forked := true }
  else
    match l.stateFile with
    | none => { launcher := l, git := g, trace := [], exitCode := some 1 }
    | some st => performRollback errMsg l g st

/-- The error message launcher.ts builds for an abnormal child exit. -/
def exitErrMsg (code : Option Int) : String :=
  "进程异常退出，code: " ++ (match code with | some c => toString c | none => "null")

/-- launcher.ts `handleChildExit`: clear the ready timer and the child handle;
do nothing if a shutdown or a restart is in flight; restart on exit code 0;
treat any other exit as a startup failure. -/
def handleChildExit (code : Option Int) (l : LauncherState) (g : GitState) : StepResult :=
  let l1 := { l with readyTimeoutArmed := false, childRunning := false }
  if l1.isShuttingDown || l1.isRestarting then
    { launcher := l1, git := g, trace := [] }
  else if code = some 0 then performRestart l1 g
  else handleStartupFailure (exitErrMsg code) l1 g

/-- Worker-lifecycle events the launcher reacts to: the IPC `ready`,
`restart` and `error` messages, the child's `exit` event, and the 30 s ready
timer firing. -/
inductive LEvent
  | childReady
  | childExit (code : Option Int)
  | readyTimeoutFired
  | restartMsg (now : Nat)
  | errorMsg (e : String)
deriving DecidableEq, Repr

/-- One supervisor step: dispatch of a lifecycle event (launcher.ts
`handleChildMessage`, the `exit` listener and the ready-timeout callback).
The `error` IPC message is logged only and triggers no action. -/
def launcherStep (ev : LEvent) (l : LauncherState) (g : GitState) : StepResult :=
  match ev with
  | .childReady => handleChildReady l g
  | .childExit c => handleChildExit c l g
  | .readyTimeoutFired => handleStartupFailure "启动超时" l g
  | .restartMsg now => handleRestartRequest now l g
  | .errorMsg _ => { launcher := l, git := g, trace := [] }

/-! ### Launcher lemmas -/

theorem handleChildReady_exitCode (l : LauncherState) (g : GitState) :
    (handleChildReady l g).exitCode = none := by
  obtain ⟨sf, rr, ta, cr, sd, ir⟩ := l
  cases sf with
  | none => rfl
  | some st =>
    obtain ⟨ci, mi, stt, ts, er, sc⟩ := st
    cases stt <;> rfl

theorem performRestart_exitCode (l : LauncherState) (g : GitState) :
    (performRestart l g).exitCode = none := by
  unfold performRestart
  split <;> rfl

theorem performRollback_exitCode (e : String) (l : LauncherState) (g : GitState)
    (st : RestartState) : (performRollback e l g st).exitCode = none := rfl

theorem handleRestartRequest_exitCode (now : Nat) (l : LauncherState) (g : GitState) :
    (handleRestartRequest now l g).exitCode = none := by
  unfold handleRestartRequest
  split
  all_goals exact performRestart_exitCode _ _

theorem handleStartupFailure_exitCode (e : String) (l : LauncherState) (g : GitState) :
    ∀ n, (handleStartupFailure e l g).exitCode = some n ↔
      (n = 1 ∧ MAX_RESTART_RETRIES ≤ l.restartRetries ∧ l.stateFile = none) := by
  intro n
  unfold handleStartupFailure
  split
  · rename_i hlt
    simp only [Nat.not_le_of_lt hlt]
    simp
  · rename_i hge
    have hle : MAX_RESTART_RETRIES ≤ l.restartRetries := Nat.le_of_not_lt hge
    split
    · rename_i hnone
      simp [hle, hnone]
      omega
    · rename_i st hsome
      rw [performRollback_exitCode]
      simp [hsome]

theorem handleStartupFailure_none_or_one (e : String) (l : LauncherState) (g : GitState) :
    (handleStartupFailure e l g).exitCode = none ∨
    (handleStartupFailure e l g).exitCode = some 1 := by
  unfold handleStartupFailure
  split
  · exact Or.inl rfl
  · split
    · exact Or.inr rfl
    · exact Or.inl (performRollback_exitCode _ _ _ _)

/-! ### Concrete launcher fixtures used by counterexamples and witnesses -/

/-- A persisted state as written by the `/restart` command handler. -/
def restartingState : RestartState :=
  { chatIds := ["oc_1"], messageIds := ["om_1"], status := RestartStatus.restarting, timestamp := 0 }

/-- A launcher that has just observed its child boot while a `restarting`
state is persisted. -/
def readyLauncher : LauncherState :=
  { stateFile := some restartingState, restartRetries := 1, readyTimeoutArmed := true,
    childRunning := true, isShuttingDown := false, isRestarting := false }

/-- A clean working tree (git status --porcelain prints nothing). -/
def cleanGit : GitState := { dirty := false, stashes := [] }

/-- A dirty working tree with no stashes. -/
def dirtyGit : GitState := { dirty := true, stashes := [] }

/-- C1 theorem (amended part). On the ready signal with persisted
`status = restarting`, the launcher cancels the startup timer, resets the
retry counter to zero, commits the working tree exactly once via stage-all
then commit WHEN the tree is dirty and zero times when it is clean, flips the
persisted status to `success`, forwards the updated state to the worker, and
schedules deletion of the state file after a 3000 ms grace delay. -/
theorem ready_restarting_commits_iff_dirty (l : LauncherState) (g : GitState)
    (st : RestartState) (hst : l.stateFile = some st)
    (hrs : st.status = RestartStatus.restarting) (hch : l.childRunning = true) :
    (handleChildReady l g).launcher.readyTimeoutArmed = false ∧
    (handleChildReady l g).launcher.restartRetries = 0 ∧
    commitTraceCount (handleChildReady l g).trace = (if g.dirty then 1 else 0) ∧
    (g.dirty = true → (handleChildReady l g).trace =
      [GitCmd.statusPorcelain, GitCmd.addAll, GitCmd.commitCmd "auto: verified restart commit"]) ∧
    (handleChildReady l g).launcher.stateFile = some { st with status := RestartStatus.success } ∧
    (handleChildReady l g).sentToChild = some { st with status := RestartStatus.success } ∧
    (handleChildReady l g).cleanupDelayMs = some 3000 := by
  obtain ⟨sf, rr, ta, cr, sd, ir⟩ := l
  obtain ⟨ci, mi, stt, ts, er, sc⟩ := st
  simp only [LauncherState.stateFile] at hst
  simp only [LauncherState.childRunning] at hch
  subst hst
  simp only [RestartState.status] at hrs
  subst hrs
  subst hch
  cases hd : g.dirty <;>
    simp [handleChildReady, commitTraceCount, hd]

/-- C1 counterexample. With a clean working tree, a ready signal under
`status = restarting` performs ZERO version-control commits (the claim's
"commits ... exactly once" demands one), even though the status is still
flipped to `success`. -/
theorem ready_restarting_clean_tree_zero_commits :
    commitTraceCount (handleChildReady readyLauncher cleanGit).trace = 0 ∧
    (handleChildReady readyLauncher cleanGit).launcher.stateFile =
      some { restartingState with status := RestartStatus.success } := by
  constructor <;> rfl

/-- C1 witness: the amended theorem applied to a dirty tree yields exactly one
commit. -/
theorem ready_restarting_commits_iff_dirty_witness :
    commitTraceCount (handleChildReady readyLauncher dirtyGit).trace = 1 := by
  have h := ready_restarting_commits_iff_dirty readyLauncher dirtyGit restartingState
    rfl rfl rfl
  simpa using h.2.2.1

/-- C2: when startup retries are exhausted and a RestartState is persisted, a
failing child exit makes the launcher stash the dirty working tree (including
untracked files) under the `launcher-auto-stash` marker — or skip stashing if
the tree is clean — persist `status = rollback` with a non-empty error
message and the `stashCreated` flag, reset the retry counter to zero and
restart the worker, leaving the working tree clean (the last committed
code). -/
theorem rollback_on_exhausted_retries (l : LauncherState) (g : GitState)
    (st : RestartState) (c : Option Int)
    (hret : MAX_RESTART_RETRIES ≤ l.restartRetries)
    (hst : l.stateFile = some st)
    (hsd : l.isShuttingDown = false) (hir : l.isRestarting = false)
    (hc : c ≠ some 0) :
    (launcherStep (LEvent.childExit c) l g).launcher.stateFile =
      some { st with status := RestartStatus.rollback, error := some (exitErrMsg c), stashCreated := some g.dirty } ∧
    exitErrMsg c ≠ "" ∧
    (launcherStep (LEvent.childExit c) l g).launcher.restartRetries = 0 ∧
    (launcherStep (LEvent.childExit c) l g).forked = true ∧
    (launcherStep (LEvent.childExit c) l g).git.dirty = false ∧
    (launcherStep (LEvent.childExit c) l g).git.stashes =
      (if g.dirty then "launcher-auto-stash" :: g.stashes else g.stashes) ∧
    (g.dirty = true → (launcherStep (LEvent.childExit c) l g).trace =
      [GitCmd.statusPorcelain, GitCmd.stashPushU "launcher-auto-stash"]) := by
  obtain ⟨sf, rr, ta, cr, sd, ir⟩ := l
  simp only [LauncherState.stateFile] at hst
  simp only [LauncherState.isShuttingDown] at hsd
  simp only [LauncherState.isRestarting] at hir
  simp only [LauncherState.restartRetries] at hret
  subst hst
  subst hsd
  subst hir
  have herr : exitErrMsg c ≠ "" := by
    intro h
    have hlen := congrArg String.length h
    rw [exitErrMsg.eq_def, String.length_append] at hlen
    have h13 : ("进程异常退出，code: " : String).length = 13 := rfl
    have h0 : ("" : String).length = 0 := rfl
    rw [h13, h0] at hlen
    omega
  have hnotlt : ¬ rr < MAX_RESTART_RETRIES := Nat.not_lt.mpr hret
  cases hd : g.dirty <;>
    simp [launcherStep, handleChildExit, handleStartupFailure, performRollback,
      forkChildR, hc, hnotlt, hd, herr]

/-- C2 witness: a concrete exhausted-retries failure on a dirty tree. -/
theorem rollback_on_exhausted_retries_witness :
    (launcherStep (LEvent.childExit (some 7)) readyLauncher dirtyGit).launcher.stateFile =
      some { restartingState with
               status := RestartStatus.rollback
               error := some (exitErrMsg (some 7))
               stashCreated := some true } ∧
    (launcherStep (LEvent.childExit (some 7)) readyLauncher dirtyGit).forked = true := by
  have h := rollback_on_exhausted_retries readyLauncher dirtyGit restartingState (some 7)
    (by decide) rfl rfl rfl (by decide)
  exact ⟨h.1, h.2.2.2.1⟩

/-- C5: across every worker-lifecycle event (ready, exit, ready-timeout,
restart request, error report), the launcher terminates the program only in
the single case of a startup failure with retries exhausted and no persisted
RestartState (a first-ever boot with nothing to roll back to), and then it
exits with the non-zero code 1. -/
theorem first_boot_failure_sole_exit (ev : LEvent) (l : LauncherState) (g : GitState) :
    ((launcherStep ev l g).exitCode = none ∨ (launcherStep ev l g).exitCode = some 1) ∧
    ((launcherStep ev l g).exitCode = some 1 ↔
      (MAX_RESTART_RETRIES ≤ l.restartRetries ∧ l.stateFile = none ∧
        (ev = LEvent.readyTimeoutFired ∨
          (∃ c, ev = LEvent.childExit c ∧ c ≠ some 0 ∧
            l.isShuttingDown = false ∧ l.isRestarting = false)))) := by
  cases ev with
  | childReady =>
    refine ⟨Or.inl (handleChildReady_exitCode l g), ?_⟩
    rw [show launcherStep LEvent.childReady l g = handleChildReady l g from rfl,
      handleChildReady_exitCode]
    simp
  | errorMsg e =>
    refine ⟨Or.inl rfl, ?_⟩
    simp [launcherStep]
  | restartMsg now =>
    refine ⟨Or.inl (handleRestartRequest_exitCode now l g), ?_⟩
    rw [show launcherStep (LEvent.restartMsg now) l g = handleRestartRequest now l g from rfl,
      handleRestartRequest_exitCode]
    simp
  | readyTimeoutFired =>
    refine ⟨handleStartupFailure_none_or_one _ l g, ?_⟩
    rw [show launcherStep LEvent.readyTimeoutFired l g = handleStartupFailure "启动超时" l g from rfl,
      handleStartupFailure_exitCode]
    simp
  | childExit c =>
    obtain ⟨sf, rr, ta, cr, sd, ir⟩ := l
    cases sd with
    | true =>
      refine ⟨Or.inl rfl, ?_⟩
      simp [launcherStep, handleChildExit]
    | false =>
      cases ir with
      | true =>
        refine ⟨Or.inl rfl, ?_⟩
        simp [launcherStep, handleChildExit]
      | false =>
        by_cases hc : c = some 0
        · subst hc
          refine ⟨Or.inl (performRestart_exitCode _ _), ?_⟩
          rw [show launcherStep (LEvent.childExit (some 0))
              ⟨sf, rr, ta, cr, false, false⟩ g =
              performRestart ⟨sf, rr, ta, false, false, false⟩ g from rfl,
            performRestart_exitCode]
          simp
        · have hstep : launcherStep (LEvent.childExit c) ⟨sf, rr, ta, cr, false, false⟩ g =
              handleStartupFailure (exitErrMsg c) ⟨sf, rr, false, false, false, false⟩ g := by
            simp [launcherStep, handleChildExit, hc]
          rw [hstep]
          refine ⟨handleStartupFailure_none_or_one _ _ _, ?_⟩
          rw [handleStartupFailure_exitCode]
          simp [hc]

/-- A launcher on its first-ever boot: no state file, retry budget spent. -/
def firstBootLauncher : LauncherState :=
  { stateFile := none, restartRetries := 1, readyTimeoutArmed := true,
    childRunning := true, isShuttingDown := false, isRestarting := false }

/-- C5 witness: the startup timer firing on a first boot with retries
exhausted terminates the program with exit code 1. -/
theorem first_boot_failure_sole_exit_witness :
    (launcherStep LEvent.readyTimeoutFired firstBootLauncher cleanGit).exitCode = some 1 :=
  (first_boot_failure_sole_exit LEvent.readyTimeoutFired firstBootLauncher cleanGit).2.mpr
    ⟨by decide, rfl, Or.inl rfl⟩

/-- A launcher with no persisted state and a healthy child, outside shutdown
and restart. -/
def idleLauncher : LauncherState :=
  { stateFile := none, restartRetries := 0, readyTimeoutArmed := true,
    childRunning := true, isShuttingDown := false, isRestarting := false }

/-- C6 counterexample. A clean (code 0) child exit with NO persisted
RestartState restarts immediately but synthesizes no state file at all
(`stateFile` stays `none`), contradicting the claim that a minimal
`restarting` state is created before restarting on this path. -/
theorem clean_exit_no_state_synthesis_counterexample :
    (handleChildExit (some 0) idleLauncher cleanGit).forked = true ∧
    (handleChildExit (some 0) idleLauncher cleanGit).launcher.stateFile = none :=
  ⟨rfl, rfl⟩

/-- C6 theorem (amended). A clean child exit outside shutdown/restart is
treated as a voluntary restart request and restarts immediately, leaving the
state file exactly as it was; the self-healing synthesis of a minimal
RestartState (status `restarting`, empty chat and message lists) happens
instead when the worker sends an explicit `restart` IPC message while no
state file exists. -/
theorem clean_exit_restarts_and_restart_msg_synthesizes (l : LauncherState) (g : GitState)
    (now : Nat) (hsd : l.isShuttingDown = false) (hir : l.isRestarting = false) :
    ((handleChildExit (some 0) l g).forked = true ∧
     (handleChildExit (some 0) l g).launcher.stateFile = l.stateFile) ∧
    (l.stateFile = none →
      (handleRestartRequest now l g).forked = true ∧
      (handleRestartRequest now l g).launcher.stateFile =
        some { chatIds := [], messageIds := [], status := RestartStatus.restarting, timestamp := now }) ∧
    (∀ st, l.stateFile = some st →
      (handleRestartRequest now l g).forked = true ∧
      (handleRestartRequest now l g).launcher.stateFile = some st) := by
  obtain ⟨sf, rr, ta, cr, sd, ir⟩ := l
  simp only [LauncherState.isShuttingDown] at hsd
  simp only [LauncherState.isRestarting] at hir
  subst hsd
  subst hir
  cases sf with
  | none =>
    refine ⟨⟨rfl, rfl⟩, fun _ => ⟨rfl, rfl⟩, fun st h => ?_⟩
    exact absurd h (by simp)
  | some st =>
    refine ⟨⟨rfl, rfl⟩, fun h => ?_, fun st' h => ?_⟩
    · exact absurd h (by simp)
    · obtain rfl : st = st' := by simpa using h
      exact ⟨rfl, rfl⟩

/-- C6 witness: concrete clean exit and concrete restart-message
self-healing. -/
theorem clean_exit_restarts_and_restart_msg_synthesizes_witness :
    (handleChildExit (some 0) idleLauncher cleanGit).forked = true ∧
    (handleRestartRequest 42 idleLauncher cleanGit).launcher.stateFile =
      some { chatIds := [], messageIds := [], status := RestartStatus.restarting, timestamp := 42 } := by
  have h := clean_exit_restarts_and_restart_msg_synthesizes idleLauncher cleanGit 42 rfl rfl
  exact ⟨h.1.1, (h.2.1 rfl).2⟩

/-! ## FeishuService message dedup cache (feishu-service.ts) -/

/-- feishu-service.ts: `MSG_DEDUP_MAX = 1000`. -/
def MSG_DEDUP_MAX : Nat := 1000

/-- feishu-service.ts: `MSG_DEDUP_TTL = 30 * 60 * 1000` (30 minutes). -/
def MSG_DEDUP_TTL : Nat := 30 * 60 * 1000

/-- The `messageCache` JS `Map`, modelled as a list of
(message id, last-seen timestamp) pairs in insertion order (JS Map iteration
order); keys are unique in any cache produced by the real operations. -/
abbrev MsgCache := List (String × Nat)

/-- JS `Map.delete`: remove the entry for a key. -/
def mapDelete (k : String) (c : MsgCache) : MsgCache :=
  c.filter fun e => decide (e.1 ≠ k)

/-- The expiry sweep inside `isDuplicate`: drop every entry older than the
TTL (`now - ts > 30 * 60 * 1000`). -/
def sweepCache (now : Nat) (c : MsgCache) : MsgCache :=
  c.filter fun e => decide (now - e.2 ≤ MSG_DEDUP_TTL)

/-- feishu-service.ts `isDuplicate`: sweep expired entries, evict the
oldest-inserted entry when the cache is at capacity (the `if (firstKey)`
truthiness check skips an empty-string key), then report whether the id is
(still) present.  Returns the presence flag and the mutated cache. -/
def isDuplicate (now : Nat) (msgId : String) (c : MsgCache) : Bool × MsgCache :=
  let c1 := sweepCache now c
  let c2 :=
    if MSG_DEDUP_MAX ≤ c1.length then
      match c1.head? with
      | some e => if e.1 = "" then c1 else mapDelete e.1 c1
      | none => c1
    else c1
  (c2.any fun e => e.1 == msgId, c2)

/-- feishu-service.ts `markSeen`: delete then re-insert the id, stamping it
with the current time (the re-insert moves it to the back of the iteration
order). -/
def markSeen (now : Nat) (msgId : String) (c : MsgCache) : MsgCache :=
  mapDelete msgId c ++ [(msgId, now)]

/-- The dedup gate at the top of feishu-service.ts `handleMessage`: a
duplicate returns early (the message callback never runs); a fresh id is
marked seen and processing continues.  The Bool is `true` iff the message
survives the gate. -/
def dedupGate (now : Nat) (msgId : String) (c : MsgCache) : Bool × MsgCache :=
  let r := isDuplicate now msgId c
  if r.1 then (false, r.2) else (true, markSeen now msgId r.2)

/-- handleMessage after the gate: empty extracted content (with no image and
no file attachments) is also dropped; otherwise the `onMessage` callback —
and with it the agent invocation and the reply — runs exactly once. -/
def handleMessageRuns (now : Nat) (msgId : String) (content : String)
    (hasImages hasFiles : Bool) (c : MsgCache) : Bool × MsgCache :=
  let r := dedupGate now msgId c
  (r.1 && (content != "" || hasImages || hasFiles), r.2)

theorem sweepCache_subset {now : Nat} {c : MsgCache} {e : String × Nat}
    (h : e ∈ sweepCache now c) : e ∈ c :=
  (List.mem_filter.mp h).1

theorem mapDelete_subset {k : String} {c : MsgCache} {e : String × Nat}
    (h : e ∈ mapDelete k c) : e ∈ c :=
  (List.mem_filter.mp h).1

theorem isDuplicate_snd_subset {now : Nat} {msgId : String} {c : MsgCache}
    {e : String × Nat} (h : e ∈ (isDuplicate now msgId c).2) : e ∈ c := by
  unfold isDuplicate at h
  dsimp only at h
  by_cases hlen : MSG_DEDUP_MAX ≤ (sweepCache now c).length
  · rw [if_pos hlen] at h
    cases hh : (sweepCache now c).head? with
    | none => rw [hh] at h; exact sweepCache_subset h
    | some e0 =>
      rw [hh] at h
      dsimp only at h
      by_cases h0 : e0.1 = ""
      · rw [if_pos h0] at h; exact sweepCache_subset h
      · rw [if_neg h0] at h; exact sweepCache_subset (mapDelete_subset h)
  · rw [if_neg hlen] at h
    exact sweepCache_subset h

/-- C4 theorem (amended). (a) A message id recorded in the dedup cache within
the 30-minute TTL is dropped by the gate at the top of `handleMessage` — the
message callback, and hence any agent invocation and reply, never runs —
provided the swept cache is below its 1000-entry capacity (so the id cannot
fall victim to oldest-first eviction).  (b) A first delivery of an id not in
the cache passes the gate and stamps the id into the cache, so it is the
redeliveries, not the first delivery, that get dropped. -/
theorem feishu_dedup_idempotent (now : Nat) (msgId : String) (c : MsgCache) :
    (∀ ts, (msgId, ts) ∈ c → now - ts ≤ MSG_DEDUP_TTL →
      (sweepCache now c).length < MSG_DEDUP_MAX →
      ∀ content hasImages hasFiles,
        (handleMessageRuns now msgId content hasImages hasFiles c).1 = false) ∧
    ((∀ ts, (msgId, ts) ∉ c) →
      (dedupGate now msgId c).1 = true ∧ (msgId, now) ∈ (dedupGate now msgId c).2) := by
  constructor
  · intro ts hmem httl hcap content hasImages hasFiles
    have hmem1 : (msgId, ts) ∈ sweepCache now c :=
      List.mem_filter.mpr ⟨hmem, by simpa using httl⟩
    have hdup : (isDuplicate now msgId c).1 = true := by
      unfold isDuplicate
      dsimp only
      rw [if_neg (Nat.not_le.mpr hcap)]
      exact List.any_eq_true.mpr ⟨(msgId, ts), hmem1, by simp⟩
    unfold handleMessageRuns dedupGate
    dsimp only
    rw [if_pos hdup]
    simp
  · intro hfresh
    have hnot : (isDuplicate now msgId c).1 = false := by
      have hany : ∀ e ∈ (isDuplicate now msgId c).2, ¬(e.1 == msgId) = true := by
        intro e he hbeq
        obtain ⟨e1, e2⟩ := e
        obtain rfl : e1 = msgId := by simpa using hbeq
        exact hfresh e2 (isDuplicate_snd_subset he)
      unfold isDuplicate at hany ⊢
      dsimp only at hany ⊢
      exact List.any_eq_false.mpr hany
    have hgate : dedupGate now msgId c =
        (true, markSeen now msgId (isDuplicate now msgId c).2) := by
      unfold dedupGate
      dsimp only
      rw [if_neg (by rw [hnot]; exact Bool.false_ne_true)]
    rw [hgate]
    exact ⟨rfl, List.mem_append_right _ (List.mem_singleton.mpr rfl)⟩

/-- A dedup cache at full capacity whose oldest entry is the id `m0`, all
entries fresh. -/
def fullCache : MsgCache := (List.range MSG_DEDUP_MAX).map fun i => ("m" ++ toString i, 0)

/-- C4 counterexample. With the cache at its 1000-entry capacity and `m0`
its oldest entry, a redelivery of `m0` at time 0 — squarely within the
30-minute TTL — is NOT dropped: capacity eviction removes `m0` first, the
gate reports it as fresh, and the callback (hence an additional agent
invocation and reply) runs again. -/
theorem dedup_capacity_eviction_counterexample :
    ("m0", 0) ∈ fullCache ∧ ((0 : Nat) - 0 ≤ MSG_DEDUP_TTL) ∧
    (handleMessageRuns 0 "m0" "hello" false false fullCache).1 = true := by
  set_option maxRecDepth 100000 in
  refine ⟨by decide, by decide, by decide⟩

/-- A cache holding one recently-seen id. -/
def seenCache : MsgCache := [("m1", 1000)]

/-- C4 witness: a redelivery of `m1` within the TTL on a small cache is
dropped, and a fresh id `m2` passes the gate. -/
theorem feishu_dedup_idempotent_witness :
    (handleMessageRuns 2000 "m1" "hello" false false seenCache).1 = false ∧
    (dedupGate 2000 "m2" seenCache).1 = true := by
  have h1 := feishu_dedup_idempotent 2000 "m1" seenCache
  have h2 := feishu_dedup_idempotent 2000 "m2" seenCache
  refine ⟨h1.1 1000 (by decide) (by decide) (by decide) "hello" false false, (h2.2 ?_).1⟩
  intro ts hts
  have h := List.mem_singleton.mp hts
  have h' : "m2" = "m1" := congrArg Prod.fst h
  exact absurd h' (by decide)

/-! ## SessionManager (session-manager.ts) -/

/-- Message roles (`SimpleMessage.role`). -/
inductive SRole
  | user
  | assistant
  | system
deriving DecidableEq, Repr

/-- A content block of an array-valued `SimpleMessage.content`: either a
`{ type: 'text', text }` block or any other block kind (ignored by the token
estimator). -/
inductive SBlock
  | textBlock (t : List Char)
  | otherBlock
deriving DecidableEq, Repr

/-- `SimpleMessage.content`: a plain string or an array of blocks. -/
inductive SContent
  | str (t : List Char)
  | blocks (bs : List SBlock)
deriving DecidableEq, Repr

/-- A `SimpleMessage`. -/
structure SMessage where
  role : SRole
  content : SContent
deriving DecidableEq, Repr

/-- Text extraction inside `estimateTokenCount`: a string content is itself;
an array content is the concatenation of its text blocks. -/
def contentText : SContent → List Char
  | .str t => t
  | .blocks bs =>
    (bs.map fun b => match b with | .textBlock t => t | .otherBlock => []).flatten

/-- The `/[一-龥]/` character class used by `estimateTokenCount`. -/
def isChineseChar (c : Char) : Bool :=
  decide (0x4e00 ≤ c.toNat) && decide (c.toNat ≤ 0x9fa5)

/-- session-manager.ts `estimateTokenCount`:
`Math.ceil(chineseChars * 1.5 + englishChars * 0.25)`, which over the
integers is `⌈(6 * chinese + english) / 4⌉ = (6 * chinese + english + 3) / 4`
(the float arithmetic is exact: all quantities are multiples of 0.25 far
below 2^53). -/
def estimateTokenCount (m : SMessage) : Nat :=
  let text := contentText m.content
  let chineseChars := (text.filter isChineseChar).length
  let englishChars := text.length - chineseChars
  (6 * chineseChars + englishChars + 3) / 4

/-- The sum of token estimates over a message list. -/
def sumEst (msgs : List SMessage) : Nat := (msgs.map estimateTokenCount).sum

/-- In-memory `SessionState` (fields the claims depend on; the timestamps are
wall-clock observability only). -/
structure SessionState where
  sessionId : String
  userId : String
  messages : List SMessage
  contextLength : Nat
deriving DecidableEq, Repr

/-- session-manager.ts default `maxContextLength = 4000`. -/
def DEFAULT_MAX_CONTEXT : Nat := 4000

/-- session-manager.ts `createSession`: a brand-new session with no messages
and `contextLength = 0`. -/
def createSession (sessionId userId : String) : SessionState :=
  { sessionId := sessionId, userId := userId, messages := [], contextLength := 0 }

/-- session-manager.ts `compressContext`: with 10 or fewer messages nothing
happens; otherwise keep all system-role messages followed by the 5 most
recent messages (`slice(-5)`) and recompute `contextLength` over the kept
list. -/
def compressContext (s : SessionState) : SessionState :=
  if s.messages.length ≤ 10 then s
  else
    let systemMessages := s.messages.filter fun m => m.role == SRole.system
    let recentMessages := s.messages.drop (s.messages.length - 5)
    { s with
        messages := systemMessages ++ recentMessages
        contextLength := sumEst (systemMessages ++ recentMessages) }

/-- session-manager.ts `addMessage`: push the message, bump `contextLength`
by the estimate, and compress when the configured ceiling is exceeded. -/
def addMessage (maxContextLength : Nat) (s : SessionState) (m : SMessage) : SessionState :=
  let s1 := { s with
                messages := s.messages ++ [m]
                contextLength := s.contextLength + estimateTokenCount m }
  if maxContextLength < s1.contextLength then compressContext s1 else s1

/-- session-manager.ts `clearMessages`. -/
def clearMessages (s : SessionState) : SessionState :=
  { s with messages := [], contextLength := 0 }

/-- Sessions reachable through the SessionManager operations that touch a
session's messages: `createSession`, `addMessage` (with its triggered
compression) and `clearMessages`. -/
inductive SessionReachable (maxContextLength : Nat) : SessionState → Prop
  | create (sessionId userId : String) :
      SessionReachable maxContextLength (createSession sessionId userId)
  | add (s : SessionState) (m : SMessage) :
      SessionReachable maxContextLength s →
      SessionReachable maxContextLength (addMessage maxContextLength s m)
  | clear (s : SessionState) :
      SessionReachable maxContextLength s →
      SessionReachable maxContextLength (clearMessages s)

theorem sumEst_snoc (l : List SMessage) (m : SMessage) :
    sumEst (l ++ [m]) = sumEst l + estimateTokenCount m := by
  simp [sumEst]

theorem compressContext_inv (s : SessionState)
    (h : s.contextLength = sumEst s.messages) :
    (compressContext s).contextLength = sumEst (compressContext s).messages := by
  unfold compressContext
  split
  · exact h
  · rfl

theorem addMessage_inv (maxContextLength : Nat) (s : SessionState) (m : SMessage)
    (h : s.contextLength = sumEst s.messages) :
    (addMessage maxContextLength s m).contextLength =
      sumEst (addMessage maxContextLength s m).messages := by
  have h1 : s.contextLength + estimateTokenCount m = sumEst (s.messages ++ [m]) := by
    rw [h, sumEst_snoc]
  unfold addMessage
  dsimp only
  split
  · exact compressContext_inv _ h1
  · exact h1

/-- C10 theorem (amended). After every SessionManager operation that touches
a session (`createSession`, `addMessage` including any triggered compression,
`clearMessages`), `contextLength` equals the sum of `estimateTokenCount` over
the messages in the session's list; in particular it is 0 whenever the list
is empty. -/
theorem session_context_length_invariant (maxContextLength : Nat) (s : SessionState)
    (h : SessionReachable maxContextLength s) :
    s.contextLength = sumEst s.messages ∧
    (s.messages = [] → s.contextLength = 0) := by
  have main : s.contextLength = sumEst s.messages := by
    induction h with
    | create sessionId userId => rfl
    | add s m hs ih => exact addMessage_inv _ s m ih
    | clear s hs ih => rfl
  refine ⟨main, fun he => ?_⟩
  rw [main, he]
  rfl

/-- A user message whose content is the empty string (token estimate 0). -/
def emptyMsg : SMessage := { role := SRole.user, content := SContent.str [] }

/-- The session obtained by adding `emptyMsg` to a fresh session. -/
def zeroLenSession : SessionState :=
  addMessage DEFAULT_MAX_CONTEXT (createSession "s1" "u1") emptyMsg

/-- C10 counterexample. A reachable session holding one empty-content message
has `contextLength = 0` with a NON-empty message list, refuting the claim's
"contextLength is 0 exactly when the list is empty". -/
theorem context_zero_with_nonempty_list_counterexample :
    zeroLenSession.contextLength = 0 ∧ zeroLenSession.messages ≠ [] ∧
    SessionReachable DEFAULT_MAX_CONTEXT zeroLenSession := by
  refine ⟨rfl, by decide, ?_⟩
  exact SessionReachable.add _ _ (SessionReachable.create "s1" "u1")

/-- A short user message. -/
def helloMsg : SMessage := { role := SRole.user, content := SContent.str ['h', 'e', 'l', 'l', 'o'] }

/-- C10 witness: the invariant applied to a concrete reachable session. -/
theorem session_context_length_invariant_witness :
    (addMessage DEFAULT_MAX_CONTEXT (createSession "s2" "u2") helloMsg).contextLength =
      sumEst (addMessage DEFAULT_MAX_CONTEXT (createSession "s2" "u2") helloMsg).messages :=
  (session_context_length_invariant DEFAULT_MAX_CONTEXT _
    (SessionReachable.add _ _ (SessionReachable.create "s2" "u2"))).1

/-- C9 theorem (amended). When appending a message pushes `contextLength`
over the ceiling, the session is compressed to exactly the system-role
messages followed by the 5 most recent messages — with `contextLength`
recomputed as the sum of the kept messages' estimates — ONLY when the
appended list holds more than 10 messages; with 10 or fewer messages the
list and the incremented `contextLength` are left as-is. -/
theorem compression_policy (maxContextLength : Nat) (s : SessionState) (m : SMessage)
    (hover : maxContextLength < s.contextLength + estimateTokenCount m) :
    ((s.messages ++ [m]).length ≤ 10 →
      (addMessage maxContextLength s m).messages = s.messages ++ [m] ∧
      (addMessage maxContextLength s m).contextLength =
        s.contextLength + estimateTokenCount m) ∧
    (10 < (s.messages ++ [m]).length →
      (addMessage maxContextLength s m).messages =
        ((s.messages ++ [m]).filter fun x => x.role == SRole.system) ++
          (s.messages ++ [m]).drop ((s.messages ++ [m]).length - 5) ∧
      (addMessage maxContextLength s m).contextLength =
        sumEst (((s.messages ++ [m]).filter fun x => x.role == SRole.system) ++
          (s.messages ++ [m]).drop ((s.messages ++ [m]).length - 5))) := by
  unfold addMessage compressContext
  dsimp only
  rw [if_pos hover]
  constructor
  · intro hle
    rw [if_pos hle]
    exact ⟨rfl, rfl⟩
  · intro hgt
    rw [if_neg (Nat.not_le.mpr hgt)]
    exact ⟨rfl, rfl⟩

/-- A user message of 450 CJK characters (token estimate
`ceil(450 * 1.5) = 675`). -/
def bigMsg : SMessage := { role := SRole.user, content := SContent.str (List.replicate 450 '一') }

/-- Six `bigMsg` appends from a fresh session: total estimate 4050. -/
def sixBigSession : SessionState :=
  (List.replicate 6 bigMsg).foldl (addMessage DEFAULT_MAX_CONTEXT) (createSession "s3" "u3")

/-- C9 counterexample. After the sixth append the estimated context length is
4050, beyond the 4000 ceiling, yet the message list still holds all 6
messages — compression was skipped because the list has 10 or fewer entries,
while the claim demands it shrink to the system messages plus the 5 most
recent (5 messages here). -/
theorem compression_skipped_counterexample :
    DEFAULT_MAX_CONTEXT < sixBigSession.contextLength ∧
    sixBigSession.messages.length = 6 ∧
    ((sixBigSession.messages.filter fun x => x.role == SRole.system) ++
      sixBigSession.messages.drop (sixBigSession.messages.length - 5)).length = 5 := by
  set_option maxRecDepth 100000 in
  refine ⟨by decide, by decide, by decide⟩

/-- A user message of 300 CJK characters (token estimate 450). -/
def medMsg : SMessage := { role := SRole.user, content := SContent.str (List.replicate 300 '一') }

/-- A session already holding 10 medium messages at the ceiling. -/
def tenMsgSession : SessionState :=
  { sessionId := "s4", userId := "u4", messages := List.replicate 10 medMsg, contextLength := 4000 }

/-- C9 witness: an 11th message over the ceiling really does compress to the
system messages plus the last 5. -/
theorem compression_policy_witness :
    (addMessage DEFAULT_MAX_CONTEXT tenMsgSession medMsg).messages =
      ((tenMsgSession.messages ++ [medMsg]).filter fun x => x.role == SRole.system) ++
        (tenMsgSession.messages ++ [medMsg]).drop
          ((tenMsgSession.messages ++ [medMsg]).length - 5) := by
  set_option maxRecDepth 100000 in
  have h := compression_policy DEFAULT_MAX_CONTEXT tenMsgSession medMsg (by decide)
  exact (h.2 (by decide)).1

/-! ## FeishuAgentBridge conversation routing (feishu-agent-bridge.ts) -/

/-- The part of the bridge's state that `getOrCreateSessionId` reads and
writes: the `chatToSessionMap` (a JS Map in insertion order) plus the list of
sessions registered with the agent layer (`agentEngine.createSession`, which
lands in `SessionManager.createSession`). -/
structure BridgeState where
  chatToSessionMap : List (String × String)
  createdSessions : List SessionState
deriving DecidableEq, Repr

/-- The bridge with no conversations yet. -/
def emptyBridge : BridgeState := { chatToSessionMap := [], createdSessions := [] }

/-- JS `Map.get` on the insertion-ordered pair list. -/
def mapGet (m : List (String × String)) (k : String) : Option String :=
  (m.find? fun e => e.1 == k).map fun e => e.2

/-- feishu-agent-bridge.ts: the composite conversation key,
`chatId` alone or `chatId + ':' + threadId`. -/
def conversationKey (chatId : String) (threadId : Option String) : String :=
  match threadId with
  | some t => chatId ++ ":" ++ t
  | none => chatId

/-- The synthesized session id of feishu-agent-bridge.ts: the configured
session-id prelude (default `"feishu_"`) followed by the chatId, with
`"_" ++ threadId` appended when a thread is present. -/
def synthSessionId (sessPfx chatId : String) (threadId : Option String) : String :=
  match threadId with
  | some t => sessPfx ++ chatId ++ "_" ++ t
  | none => sessPfx ++ chatId

/-- feishu-agent-bridge.ts `getOrCreateSessionId`: return the mapped session
id if the key is known; otherwise synthesize the id, record the mapping and
register a brand-new session with the agent layer, using the chatId as the
user id. -/
def getOrCreateSessionId (sessPfx : String) (b : BridgeState) (chatId : String)
    (threadId : Option String) : String × BridgeState :=
  let sessionKey := conversationKey chatId threadId
  match mapGet b.chatToSessionMap sessionKey with
  | some sid => (sid, b)
  | none =>
    let sid := synthSessionId sessPfx chatId threadId
    (sid,
      { chatToSessionMap := b.chatToSessionMap ++ [(sessionKey, sid)]
        createdSessions := b.createdSessions ++ [createSession sid chatId] })

theorem mapGet_append_of_none {m : List (String × String)} {k : String}
    (h : mapGet m k = none) (e : String × String) (hk : e.1 = k) :
    mapGet (m ++ [e]) k = some e.2 := by
  unfold mapGet at h ⊢
  rw [List.find?_append]
  cases hf : m.find? fun x => x.1 == k with
  | none => simp [hf, hk]
  | some x => rw [hf] at h; simp at h

/-- C8: on the first message for a conversation key the router synthesizes
`sessionId = sessPfx ++ chatId` (with `"_" ++ threadId` appended when a thread
is present), records the key-to-session mapping, and registers exactly one
brand-new EMPTY session (no messages, zero context length) with the agent
layer under that id with the chatId as user id; any subsequent message for
the same key gets the same session id back with no state change and no new
registration. -/
theorem session_routing_create_then_reuse (sessPfx chatId : String)
    (threadId : Option String) (b : BridgeState)
    (hnew : mapGet b.chatToSessionMap (conversationKey chatId threadId) = none) :
    (getOrCreateSessionId sessPfx b chatId threadId).1 =
      synthSessionId sessPfx chatId threadId ∧
    (getOrCreateSessionId sessPfx b chatId threadId).2.chatToSessionMap =
      b.chatToSessionMap ++
        [(conversationKey chatId threadId, synthSessionId sessPfx chatId threadId)] ∧
    (getOrCreateSessionId sessPfx b chatId threadId).2.createdSessions =
      b.createdSessions ++
        [createSession (synthSessionId sessPfx chatId threadId) chatId] ∧
    (createSession (synthSessionId sessPfx chatId threadId) chatId).messages = [] ∧
    (createSession (synthSessionId sessPfx chatId threadId) chatId).contextLength = 0 ∧
    getOrCreateSessionId sessPfx (getOrCreateSessionId sessPfx b chatId threadId).2 chatId threadId =
      ((getOrCreateSessionId sessPfx b chatId threadId).1,
        (getOrCreateSessionId sessPfx b chatId threadId).2) := by
  have hfirst : getOrCreateSessionId sessPfx b chatId threadId =
      (synthSessionId sessPfx chatId threadId,
        { chatToSessionMap := b.chatToSessionMap ++
            [(conversationKey chatId threadId, synthSessionId sessPfx chatId threadId)]
          createdSessions := b.createdSessions ++
            [createSession (synthSessionId sessPfx chatId threadId) chatId] }) := by
    unfold getOrCreateSessionId
    dsimp only
    rw [hnew]
  refine ⟨by rw [hfirst], by rw [hfirst], by rw [hfirst], rfl, rfl, ?_⟩
  rw [hfirst]
  unfold getOrCreateSessionId
  dsimp only
  rw [mapGet_append_of_none hnew
    (conversationKey chatId threadId, synthSessionId sessPfx chatId threadId) rfl]

/-- C8 witness: the spec scenario — chat `C1`, no thread, default session-id
prelude `feishu_` — creates `feishu_C1` and the second message reuses it. -/
theorem session_routing_create_then_reuse_witness :
    (getOrCreateSessionId "feishu_" emptyBridge "C1" none).1 = "feishu_C1" ∧
    getOrCreateSessionId "feishu_"
        (getOrCreateSessionId "feishu_" emptyBridge "C1" none).2 "C1" none =
      ((getOrCreateSessionId "feishu_" emptyBridge "C1" none).1,
        (getOrCreateSessionId "feishu_" emptyBridge "C1" none).2) := by
  have h := session_routing_create_then_reuse "feishu_" "C1" none emptyBridge rfl
  exact ⟨h.1, h.2.2.2.2.2⟩

/-! ## FeishuService oversized-reply splitting (feishu-service.ts)

Texts are modelled as `List Char`.  `sendMessage` measures and splits
`processedText`, the output of `processContentWithImages` (which returns the
input unchanged when its image-path regex finds nothing); the send plan below
is stated over that text. -/

/-- feishu-service.ts: `PLAIN_TEXT_LIMIT = 200`. -/
def PLAIN_TEXT_LIMIT : Nat := 200

/-- feishu-service.ts: `CARD_MD_LIMIT = 4000`, the single-message limit of
the card path that oversized replies are split against. -/
def CARD_MD_LIMIT : Nat := 4000

/-- The character class stripped by JS `String.prototype.trim`:
ECMAScript WhiteSpace — TAB U+0009, VT U+000B, FF U+000C, SP U+0020,
NBSP U+00A0, ZWNBSP U+FEFF and the Unicode space separators (category Zs:
U+1680, U+2000..U+200A, U+202F, U+205F, U+3000) — together with the
LineTerminators LF U+000A, CR U+000D, LS U+2028 and PS U+2029. -/
def jsWhitespace (c : Char) : Bool :=
  let n := c.toNat
  n == 0x09 || n == 0x0A || n == 0x0B || n == 0x0C || n == 0x0D ||
    n == 0x20 || n == 0xA0 || n == 0x1680 ||
    (decide (0x2000 ≤ n) && decide (n ≤ 0x200A)) ||
    n == 0x2028 || n == 0x2029 || n == 0x202F || n == 0x205F ||
    n == 0x3000 || n == 0xFEFF

/-- Spot checks of the trim class: vertical tab, form feed, NBSP, ZWNBSP, an
en space from the Zs range, the line separator and plain newline are
whitespace to JS `trim`; letters and punctuation are not. -/
theorem jsWhitespace_spot_checks :
    jsWhitespace '\u000B' = true ∧ jsWhitespace '\u000C' = true ∧
    jsWhitespace '\u00A0' = true ∧ jsWhitespace '\uFEFF' = true ∧
    jsWhitespace '\u2003' = true ∧ jsWhitespace '\u2028' = true ∧
    jsWhitespace '\n' = true ∧ jsWhitespace 'a' = false ∧
    jsWhitespace '.' = false := by decide

/-- Negation of `jsWhitespace`, used to state what the boundary trimming
preserves. -/
def notWs (c : Char) : Bool := !jsWhitespace c

/-- JS `trim()`: drop whitespace from both ends. -/
def jsTrim (s : List Char) : List Char :=
  ((s.dropWhile jsWhitespace).reverse.dropWhile jsWhitespace).reverse

/-- Scanner for JS `String.prototype.lastIndexOf(pat, pos)`: the accumulator
holds the latest match index `≤ pos` seen so far. -/
def lastIndexOfLeAux (pat : List Char) (pos : Nat) :
    List Char → Nat → Option Nat → Option Nat
  | [], _, acc => acc
  | c :: rest, i, acc =>
    lastIndexOfLeAux pat pos rest (i + 1)
      (if decide (i ≤ pos) && pat.isPrefixOf (c :: rest) then some i else acc)

/-- JS `s.lastIndexOf(pat, pos)`: the largest index `i ≤ pos` where `pat`
occurs in `s`, as an `Option` (JS returns `-1` for none). -/
def lastIndexOfLe (pat s : List Char) (pos : Nat) : Option Nat :=
  lastIndexOfLeAux pat pos s 0 none

/-- The split-index choice inside one iteration of
feishu-service.ts `splitAtParagraphs`: last `"\n\n"` at or before `maxLen`;
if that is below `0.3 * maxLen` (or absent), fall back to the last `"\n"`;
if still below the threshold, hard-cut at `maxLen`.  The float comparison
`idx < maxLen * 0.3` is the exact integer comparison `10 * idx < 3 * maxLen`
(for the two limits 4000 and 2048 the float product rounds to a value with
the same integer cut-off). -/
def chooseSplitIdx (s : List Char) (maxLen : Nat) : Nat :=
  let i1 := lastIndexOfLe ['\n', '\n'] s maxLen
  let i2 :=
    match i1 with
    | some i => if 10 * i < 3 * maxLen then lastIndexOfLe ['\n'] s maxLen else some i
    | none => lastIndexOfLe ['\n'] s maxLen
  match i2 with
  | some i => if 10 * i < 3 * maxLen then maxLen else i
  | none => maxLen

/-- The `while (remaining.length > maxLen)` loop of `splitAtParagraphs`, with
a fuel argument bounding the iteration count (the loop consumes at least one
character per iteration, so `remaining.length` is always sufficient fuel);
the trailing `if (remaining) chunks.push(remaining)` is the non-loop
branch. -/
def splitAtParagraphsGo (maxLen : Nat) : Nat → List Char → List (List Char)
  | 0, s => if s.isEmpty then [] else [s]
  | fuel + 1, s =>
    if maxLen < s.length then
      jsTrim (s.take (chooseSplitIdx s maxLen)) ::
        splitAtParagraphsGo maxLen fuel (jsTrim (s.drop (chooseSplitIdx s maxLen)))
    else if s.isEmpty then [] else [s]

/-- feishu-service.ts `splitAtParagraphs`. -/
def splitAtParagraphs (s : List Char) (maxLen : Nat) : List (List Char) :=
  if s.length ≤ maxLen then [s] else splitAtParagraphsGo maxLen s.length s

/-- The two outbound message shapes `sendMessage` chooses between. -/
inductive FeishuMsgKind
  | plainText
  | interactiveCard
deriving DecidableEq, Repr

/-- One outbound message of a send plan: its content, the message id it
replies to (the reply anchor) if any, the thread id if any, and its shape. -/
structure OutMsg where
  text : List Char
  replyTo : Option String
  threadId : Option String
  kind : FeishuMsgKind
deriving DecidableEq, Repr

/-- feishu-service.ts `sendMessage`, taking the (post-image-substitution)
text it measures: short texts go out as one plain-text message (that path's
internal 2048-split is unreachable from here since 200 < 2048), medium texts
as one card, and texts beyond `CARD_MD_LIMIT` as a sequence of card chunks of
which only the first carries the reply anchor (subsequent chunks keep only
the thread id). -/
def sendMessagePlan (text : List Char) (replyMessageId : Option String)
    (threadId : Option String) : List OutMsg :=
  if text.length ≤ PLAIN_TEXT_LIMIT then
    [{ text := text, replyTo := replyMessageId, threadId := threadId,
       kind := FeishuMsgKind.plainText }]
  else if text.length ≤ CARD_MD_LIMIT then
    [{ text := text, replyTo := replyMessageId, threadId := threadId,
       kind := FeishuMsgKind.interactiveCard }]
  else
    (splitAtParagraphs text CARD_MD_LIMIT).enum.map fun p =>
      { text := p.2, replyTo := if p.1 = 0 then replyMessageId else none,
        threadId := threadId, kind := FeishuMsgKind.interactiveCard }

/-! ### Splitter lemmas -/

theorem lastIndexOfLeAux_le (pat : List Char) (pos : Nat) :
    ∀ (s : List Char) (i : Nat) (acc : Option Nat),
      (∀ j, acc = some j → j ≤ pos) →
      ∀ j, lastIndexOfLeAux pat pos s i acc = some j → j ≤ pos := by
  intro s
  induction s with
  | nil => intro i acc hacc j h; exact hacc j h
  | cons c rest ih =>
    intro i acc hacc j h
    simp only [lastIndexOfLeAux] at h
    refine ih (i + 1) _ ?_ j h
    intro j' hj'
    by_cases hc : (decide (i ≤ pos) && pat.isPrefixOf (c :: rest)) = true
    · rw [if_pos hc] at hj'
      obtain rfl : i = j' := by injection hj'
      exact of_decide_eq_true (Bool.and_eq_true_iff.mp hc).1
    · rw [if_neg hc] at hj'
      exact hacc j' hj'

theorem lastIndexOfLe_le {pat s : List Char} {pos i : Nat}
    (h : lastIndexOfLe pat s pos = some i) : i ≤ pos :=
  lastIndexOfLeAux_le pat pos s 0 none (by intro j hj; cases hj) i h

theorem chooseSplitIdx_cases (s : List Char) (maxLen : Nat) :
    chooseSplitIdx s maxLen = maxLen ∨
    (∃ i, (lastIndexOfLe ['\n', '\n'] s maxLen = some i ∨
           lastIndexOfLe ['\n'] s maxLen = some i) ∧
      chooseSplitIdx s maxLen = i ∧ 3 * maxLen ≤ 10 * i) := by
  unfold chooseSplitIdx
  dsimp only
  cases h1 : lastIndexOfLe ['\n', '\n'] s maxLen with
  | none =>
    dsimp only
    cases h2 : lastIndexOfLe ['\n'] s maxLen with
    | none => exact Or.inl rfl
    | some i =>
      dsimp only
      by_cases ht : 10 * i < 3 * maxLen
      · rw [if_pos ht]; exact Or.inl rfl
      · rw [if_neg ht]; exact Or.inr ⟨i, Or.inr rfl, rfl, Nat.le_of_not_lt ht⟩
  | some i =>
    dsimp only
    by_cases ht1 : 10 * i < 3 * maxLen
    · rw [if_pos ht1]
      cases h2 : lastIndexOfLe ['\n'] s maxLen with
      | none => exact Or.inl rfl
      | some i' =>
        dsimp only
        by_cases ht2 : 10 * i' < 3 * maxLen
        · rw [if_pos ht2]; exact Or.inl rfl
        · rw [if_neg ht2]; exact Or.inr ⟨i', Or.inr rfl, rfl, Nat.le_of_not_lt ht2⟩
    · rw [if_neg ht1]
      dsimp only
      rw [if_neg ht1]
      exact Or.inr ⟨i, Or.inl rfl, rfl, Nat.le_of_not_lt ht1⟩

theorem chooseSplitIdx_le (s : List Char) (maxLen : Nat) :
    chooseSplitIdx s maxLen ≤ maxLen := by
  rcases chooseSplitIdx_cases s maxLen with h | ⟨i, hfound, heq, _⟩
  · omega
  · rw [heq]
    rcases hfound with h | h
    · exact lastIndexOfLe_le h
    · exact lastIndexOfLe_le h

theorem chooseSplitIdx_pos (s : List Char) (maxLen : Nat) (hm : 1 ≤ maxLen) :
    1 ≤ chooseSplitIdx s maxLen := by
  rcases chooseSplitIdx_cases s maxLen with h | ⟨i, _, heq, hge⟩
  · omega
  · rw [heq]; omega

theorem length_dropWhile_le (p : Char → Bool) (l : List Char) :
    (l.dropWhile p).length ≤ l.length := by
  induction l with
  | nil => simp
  | cons c rest ih =>
    by_cases h : p c = true
    · rw [List.dropWhile_cons_of_pos h]
      simpa using Nat.le_succ_of_le ih
    · rw [List.dropWhile_cons_of_neg (by simpa using h)]

theorem jsTrim_length_le (s : List Char) : (jsTrim s).length ≤ s.length := by
  unfold jsTrim
  calc ((s.dropWhile jsWhitespace).reverse.dropWhile jsWhitespace).reverse.length
      = ((s.dropWhile jsWhitespace).reverse.dropWhile jsWhitespace).length := by
        rw [List.length_reverse]
    _ ≤ (s.dropWhile jsWhitespace).reverse.length := length_dropWhile_le _ _
    _ = (s.dropWhile jsWhitespace).length := by rw [List.length_reverse]
    _ ≤ s.length := length_dropWhile_le _ _

theorem filter_notWs_dropWhile (s : List Char) :
    (s.dropWhile jsWhitespace).filter notWs = s.filter notWs := by
  induction s with
  | nil => rfl
  | cons c rest ih =>
    by_cases h : jsWhitespace c = true
    · rw [List.dropWhile_cons_of_pos h, ih, List.filter_cons]
      have : notWs c = false := by rw [notWs, h]; rfl
      rw [this]
      simp
    · rw [List.dropWhile_cons_of_neg (by simpa using h)]

theorem filter_notWs_jsTrim (s : List Char) :
    (jsTrim s).filter notWs = s.filter notWs := by
  unfold jsTrim
  rw [List.filter_reverse, filter_notWs_dropWhile, List.filter_reverse,
    filter_notWs_dropWhile, List.reverse_reverse]

theorem splitAtParagraphsGo_chunk_le (maxLen : Nat) (hm : 1 ≤ maxLen) :
    ∀ (fuel : Nat) (s : List Char), s.length ≤ fuel →
      ∀ ch ∈ splitAtParagraphsGo maxLen fuel s, ch.length ≤ maxLen := by
  intro fuel
  induction fuel with
  | zero =>
    intro s hs ch hch
    obtain rfl : s = [] := List.length_eq_zero.mp (Nat.le_zero.mp hs)
    simp [splitAtParagraphsGo] at hch
  | succ fuel ih =>
    intro s hs ch hch
    simp only [splitAtParagraphsGo] at hch
    by_cases hlen : maxLen < s.length
    · rw [if_pos hlen] at hch
      rcases List.mem_cons.mp hch with h | h
      · subst h
        calc (jsTrim (s.take (chooseSplitIdx s maxLen))).length
            ≤ (s.take (chooseSplitIdx s maxLen)).length := jsTrim_length_le _
          _ ≤ chooseSplitIdx s maxLen := by
              rw [List.length_take]; exact min_le_left _ _
          _ ≤ maxLen := chooseSplitIdx_le s maxLen
      · refine ih (jsTrim (s.drop (chooseSplitIdx s maxLen))) ?_ ch h
        have h1 : 1 ≤ chooseSplitIdx s maxLen := chooseSplitIdx_pos s maxLen hm
        have h2 : (jsTrim (s.drop (chooseSplitIdx s maxLen))).length ≤
            s.length - chooseSplitIdx s maxLen := by
          calc (jsTrim (s.drop (chooseSplitIdx s maxLen))).length
              ≤ (s.drop (chooseSplitIdx s maxLen)).length := jsTrim_length_le _
            _ = s.length - chooseSplitIdx s maxLen := List.length_drop _ _
        omega
    · rw [if_neg hlen] at hch
      by_cases he : s.isEmpty
      · rw [if_pos he] at hch
        simp at hch
      · rw [if_neg he] at hch
        obtain rfl : ch = s := by simpa using hch
        exact Nat.le_of_not_lt hlen

theorem splitAtParagraphsGo_filter (maxLen : Nat) (hm : 1 ≤ maxLen) :
    ∀ (fuel : Nat) (s : List Char), s.length ≤ fuel →
      (splitAtParagraphsGo maxLen fuel s).flatten.filter notWs = s.filter notWs := by
  intro fuel
  induction fuel with
  | zero =>
    intro s hs
    obtain rfl : s = [] := List.length_eq_zero.mp (Nat.le_zero.mp hs)
    rfl
  | succ fuel ih =>
    intro s hs
    simp only [splitAtParagraphsGo]
    by_cases hlen : maxLen < s.length
    · rw [if_pos hlen]
      have h1 : 1 ≤ chooseSplitIdx s maxLen := chooseSplitIdx_pos s maxLen hm
      have h2 : (jsTrim (s.drop (chooseSplitIdx s maxLen))).length ≤ fuel := by
        have := jsTrim_length_le (s.drop (chooseSplitIdx s maxLen))
        rw [List.length_drop] at this
        omega
      rw [List.flatten_cons, List.filter_append, filter_notWs_jsTrim,
        ih (jsTrim (s.drop (chooseSplitIdx s maxLen))) h2, filter_notWs_jsTrim,
        ← List.filter_append, List.take_append_drop]
    · rw [if_neg hlen]
      by_cases he : s.isEmpty
      · rw [if_pos he]
        obtain rfl : s = [] := by simpa [List.isEmpty_iff] using he
        rfl
      · rw [if_neg he]
        simp

theorem splitAtParagraphs_chunk_le (s : List Char) (maxLen : Nat) (hm : 1 ≤ maxLen) :
    ∀ ch ∈ splitAtParagraphs s maxLen, ch.length ≤ maxLen := by
  unfold splitAtParagraphs
  split
  · rename_i h
    intro ch hch
    obtain rfl : ch = s := by simpa using hch
    exact h
  · exact splitAtParagraphsGo_chunk_le maxLen hm s.length s le_rfl

theorem splitAtParagraphs_filter (s : List Char) (maxLen : Nat) (hm : 1 ≤ maxLen) :
    (splitAtParagraphs s maxLen).flatten.filter notWs = s.filter notWs := by
  unfold splitAtParagraphs
  split
  · simp
  · exact splitAtParagraphsGo_filter maxLen hm s.length s le_rfl

theorem splitAtParagraphs_ne_nil (s : List Char) (maxLen : Nat)
    (hbig : maxLen < s.length) : splitAtParagraphs s maxLen ≠ [] := by
  unfold splitAtParagraphs
  rw [if_neg (Nat.not_le.mpr hbig)]
  cases hL : s.length with
  | zero => omega
  | succ n =>
    simp only [splitAtParagraphsGo]
    rw [if_pos hbig]
    exact List.cons_ne_nil _ _

theorem enumFrom_map_anchor (a : Option String) :
    ∀ (xs : List (List Char)) (n : Nat), 1 ≤ n →
      (List.enumFrom n xs).map (fun p => if p.1 = 0 then a else none) =
        List.replicate xs.length none := by
  intro xs
  induction xs with
  | nil => intro n _; rfl
  | cons x xs ih =>
    intro n hn
    rw [List.enumFrom_cons]
    simp only [List.map_cons, List.length_cons, List.replicate_succ]
    rw [if_neg (by omega), ih (n + 1) (by omega)]

theorem enum_map_anchor (a : Option String) (chunks : List (List Char))
    (hne : chunks ≠ []) :
    (chunks.enum.map fun p => if p.1 = 0 then a else none) =
      a :: List.replicate (chunks.length - 1) none := by
  cases chunks with
  | nil => exact absurd rfl hne
  | cons c cs =>
    rw [List.enum_cons]
    simp only [List.map_cons]
    rw [enumFrom_map_anchor a cs 1 le_rfl]
    simp

/-- C7 theorem (amended). For every reply text longer than the
single-message card limit, the send plan consists of one or more card
messages, each no longer than the limit, with only the first carrying the
reply anchor (the rest keep the thread id but no anchor); the concatenation
of the chunks reconstructs the original content up to the whitespace trimmed
at chunk boundaries (every non-whitespace character is preserved, in
order). -/
theorem oversized_reply_split (text : List Char) (anchor threadId : Option String)
    (hbig : CARD_MD_LIMIT < text.length) :
    1 ≤ (sendMessagePlan text anchor threadId).length ∧
    (∀ m ∈ sendMessagePlan text anchor threadId,
      m.text.length ≤ CARD_MD_LIMIT ∧ m.threadId = threadId ∧
      m.kind = FeishuMsgKind.interactiveCard) ∧
    (sendMessagePlan text anchor threadId).map OutMsg.replyTo =
      anchor :: List.replicate ((sendMessagePlan text anchor threadId).length - 1) none ∧
    ((sendMessagePlan text anchor threadId).map OutMsg.text).flatten.filter notWs =
      text.filter notWs := by
  have hbig' : 4000 < text.length := hbig
  have hm1 : (1 : Nat) ≤ CARD_MD_LIMIT := by decide
  have hCne : splitAtParagraphs text CARD_MD_LIMIT ≠ [] :=
    splitAtParagraphs_ne_nil _ _ hbig
  have hplan : sendMessagePlan text anchor threadId =
      (splitAtParagraphs text CARD_MD_LIMIT).enum.map (fun p =>
        { text := p.2, replyTo := if p.1 = 0 then anchor else none,
          threadId := threadId, kind := FeishuMsgKind.interactiveCard }) := by
    unfold sendMessagePlan
    rw [if_neg (show ¬ text.length ≤ PLAIN_TEXT_LIMIT by
          show ¬ text.length ≤ 200
          omega),
        if_neg (show ¬ text.length ≤ CARD_MD_LIMIT by
          show ¬ text.length ≤ 4000
          omega)]
  have hsnd : (splitAtParagraphs text CARD_MD_LIMIT).enum.map Prod.snd =
      splitAtParagraphs text CARD_MD_LIMIT := List.enumFrom_map_snd 0 _
  refine ⟨?_, ?_, ?_, ?_⟩
  · rw [hplan, List.length_map, List.enum_eq_enumFrom, List.enumFrom_length]
    exact List.length_pos.mpr hCne
  · rw [hplan]
    intro m hm
    rcases List.mem_map.mp hm with ⟨p, hp, rfl⟩
    refine ⟨?_, rfl, rfl⟩
    have hmem : p.2 ∈ splitAtParagraphs text CARD_MD_LIMIT := by
      have h2 := List.mem_map_of_mem Prod.snd hp
      rwa [hsnd] at h2
    exact splitAtParagraphs_chunk_le text CARD_MD_LIMIT hm1 p.2 hmem
  · rw [hplan, List.map_map]
    have hlen : ((splitAtParagraphs text CARD_MD_LIMIT).enum.map (fun p =>
        ({ text := p.2, replyTo := if p.1 = 0 then anchor else none,
           threadId := threadId, kind := FeishuMsgKind.interactiveCard } : OutMsg))).length =
        (splitAtParagraphs text CARD_MD_LIMIT).length := by
      rw [List.length_map, List.enum_eq_enumFrom, List.enumFrom_length]
    rw [hlen]
    exact enum_map_anchor anchor _ hCne
  · rw [hplan, List.map_map]
    have hcomp : ((splitAtParagraphs text CARD_MD_LIMIT).enum.map
        (OutMsg.text ∘ fun p =>
          ({ text := p.2, replyTo := if p.1 = 0 then anchor else none,
             threadId := threadId, kind := FeishuMsgKind.interactiveCard } : OutMsg))) =
        splitAtParagraphs text CARD_MD_LIMIT := hsnd
    rw [hcomp]
    exact splitAtParagraphs_filter text CARD_MD_LIMIT hm1

theorem lastIndexOfLeAux_none_of_no_head (c0 : Char) (pat : List Char) (pos : Nat) :
    ∀ (s : List Char) (i : Nat), (∀ c ∈ s, (c0 == c) = false) →
      lastIndexOfLeAux (c0 :: pat) pos s i none = none := by
  intro s
  induction s with
  | nil => intro i _; rfl
  | cons c rest ih =>
    intro i h
    simp only [lastIndexOfLeAux]
    have hpre : (c0 :: pat).isPrefixOf (c :: rest) = false := by
      simp only [List.isPrefixOf]
      rw [h c (List.mem_cons_self c rest)]
      rfl
    rw [show (decide (i ≤ pos) && (c0 :: pat).isPrefixOf (c :: rest)) = false by
          rw [hpre]; exact Bool.and_false _]
    rw [if_neg (by simp)]
    exact ih (i + 1) fun c' hc' => h c' (List.mem_cons_of_mem c hc')

theorem lastIndexOfLe_none_of_no_head (c0 : Char) (pat s : List Char) (pos : Nat)
    (h : ∀ c ∈ s, (c0 == c) = false) :
    lastIndexOfLe (c0 :: pat) s pos = none :=
  lastIndexOfLeAux_none_of_no_head c0 pat pos s 0 h

theorem chooseSplitIdx_of_no_newline (s : List Char) (maxLen : Nat)
    (h : ∀ c ∈ s, (('\n' : Char) == c) = false) :
    chooseSplitIdx s maxLen = maxLen := by
  have h1 := lastIndexOfLe_none_of_no_head '\n' ['\n'] s maxLen h
  have h2 := lastIndexOfLe_none_of_no_head '\n' [] s maxLen h
  unfold chooseSplitIdx
  dsimp only
  rw [h1]
  dsimp only
  rw [h2]

theorem dropWhile_replicate_of_neg (p : Char → Bool) (c : Char) (h : p c = false)
    (n : Nat) : (List.replicate n c).dropWhile p = List.replicate n c := by
  cases n with
  | zero => rfl
  | succ n =>
    rw [List.replicate_succ]
    exact List.dropWhile_cons_of_neg (by simp [h])

theorem dropWhile_replicate_of_pos (p : Char → Bool) (c : Char) (h : p c = true)
    (n : Nat) : (List.replicate n c).dropWhile p = [] := by
  induction n with
  | zero => rfl
  | succ n ih =>
    rw [List.replicate_succ, List.dropWhile_cons_of_pos h]
    exact ih

theorem jsTrim_replicate_of_notws (c : Char) (h : jsWhitespace c = false) (n : Nat) :
    jsTrim (List.replicate n c) = List.replicate n c := by
  unfold jsTrim
  rw [dropWhile_replicate_of_neg _ _ h, List.reverse_replicate,
    dropWhile_replicate_of_neg _ _ h, List.reverse_replicate]

theorem jsTrim_replicate_of_ws (c : Char) (h : jsWhitespace c = true) (n : Nat) :
    jsTrim (List.replicate n c) = [] := by
  unfold jsTrim
  rw [dropWhile_replicate_of_pos _ _ h]
  rfl

/-- The reply text feishu-service.ts mishandles: 4000 letters followed by 10
trailing spaces — 4010 characters, beyond the 4000-character card limit. -/
def overflowText : List Char := List.replicate 4000 'a' ++ List.replicate 10 ' '

theorem overflowText_length : overflowText.length = 4010 := by
  unfold overflowText
  rw [List.length_append, List.length_replicate, List.length_replicate]

theorem overflowText_no_newline : ∀ c ∈ overflowText, (('\n' : Char) == c) = false := by
  intro c hc
  rcases List.mem_append.mp hc with h | h
  · obtain rfl : c = 'a' := (List.eq_of_mem_replicate h)
    decide
  · obtain rfl : c = ' ' := (List.eq_of_mem_replicate h)
    decide

theorem splitAtParagraphsGo_nil (maxLen fuel : Nat) :
    splitAtParagraphsGo maxLen fuel [] = [] := by
  cases fuel with
  | zero => rfl
  | succ fuel =>
    simp only [splitAtParagraphsGo]
    rw [if_neg (by simp)]
    rfl

theorem splitAtParagraphsGo_succ (maxLen fuel : Nat) (s : List Char) :
    splitAtParagraphsGo maxLen (fuel + 1) s =
      if maxLen < s.length then
        jsTrim (s.take (chooseSplitIdx s maxLen)) ::
          splitAtParagraphsGo maxLen fuel (jsTrim (s.drop (chooseSplitIdx s maxLen)))
      else if s.isEmpty then [] else [s] := rfl

theorem split_overflowText :
    splitAtParagraphs overflowText CARD_MD_LIMIT = [List.replicate 4000 'a'] := by
  have hlen := overflowText_length
  unfold splitAtParagraphs
  rw [if_neg (show ¬ overflowText.length ≤ CARD_MD_LIMIT by
        rw [hlen]; decide)]
  rw [hlen]
  rw [show (4010 : Nat) = 4009 + 1 from rfl, splitAtParagraphsGo_succ]
  rw [if_pos (show CARD_MD_LIMIT < overflowText.length by rw [hlen]; decide)]
  have hidx : chooseSplitIdx overflowText CARD_MD_LIMIT = 4000 :=
    chooseSplitIdx_of_no_newline overflowText CARD_MD_LIMIT overflowText_no_newline
  rw [hidx]
  have htake : overflowText.take 4000 = List.replicate 4000 'a' :=
    List.take_left' (List.length_replicate 4000 'a')
  have hdrop : overflowText.drop 4000 = List.replicate 10 ' ' :=
    List.drop_left' (List.length_replicate 4000 'a')
  rw [htake, hdrop]
  rw [jsTrim_replicate_of_notws 'a' (by decide) 4000, jsTrim_replicate_of_ws ' ' (by decide) 10]
  rw [splitAtParagraphsGo_nil]

/-- C7 counterexample. The plan for `overflowText` (length 4010 > 4000) is a
SINGLE message — not two or more — whose content is only the 4000 letters:
the trailing whitespace was trimmed away, so concatenating the chunks does
not reconstruct the original content. -/
theorem oversized_reply_counterexample :
    CARD_MD_LIMIT < overflowText.length ∧
    (sendMessagePlan overflowText none none).length = 1 ∧
    ((sendMessagePlan overflowText none none).map OutMsg.text).flatten ≠ overflowText := by
  have hlen := overflowText_length
  have hplan : sendMessagePlan overflowText none none =
      [{ text := List.replicate 4000 'a', replyTo := none, threadId := none,
         kind := FeishuMsgKind.interactiveCard }] := by
    unfold sendMessagePlan
    rw [if_neg (show ¬ overflowText.length ≤ PLAIN_TEXT_LIMIT by rw [hlen]; decide),
        if_neg (show ¬ overflowText.length ≤ CARD_MD_LIMIT by rw [hlen]; decide)]
    rw [split_overflowText]
    rfl
  refine ⟨by rw [hlen]; decide, by rw [hplan]; rfl, ?_⟩
  rw [hplan]
  intro h
  have hl := congrArg List.length h
  rw [hlen] at hl
  rw [show (([⟨List.replicate 4000 'a', none, none, FeishuMsgKind.interactiveCard⟩] :
        List OutMsg).map OutMsg.text).flatten.length = 4000 from by
    simp only [List.map_cons, List.map_nil, List.flatten_cons, List.flatten_nil,
      List.append_nil, List.length_replicate]] at hl
  exact absurd hl (by decide)

/-- C7 witness: the amended theorem at a concrete 4001-character text. -/
theorem oversized_reply_split_witness :
    1 ≤ (sendMessagePlan (List.replicate 4001 'b') (some "om_9") none).length ∧
    (sendMessagePlan (List.replicate 4001 'b') (some "om_9") none).map OutMsg.replyTo =
      some "om_9" ::
        List.replicate ((sendMessagePlan (List.replicate 4001 'b') (some "om_9") none).length - 1)
          none := by
  have h := oversized_reply_split (List.replicate 4001 'b') (some "om_9") none
    (by rw [List.length_replicate]; decide)
  exact ⟨h.1, h.2.2.1⟩

end MyClaw
